import Mathlib

/-!
Verification of the core of unoconv-server (src/lib/converter.js), a small
RESTful wrapper around the unoconv document converter.  The JavaScript
source is shallowly embedded below: JavaScript values flowing through the
option machinery are modelled by `JsValue`, plain objects used as option
maps by association lists with assignment semantics, thrown errors by
`Except` with the thrown message as the payload, and the per-request
parsing loop of `parseUrlCommand` by a recursive function over the list of
slash-separated tokens.
-/

set_option autoImplicit false
set_option maxRecDepth 8000

namespace UnoconvServer

/-- A JavaScript value as it occurs in the option maps and argument lists
of converter.js: `undefined` (for a missing token or property), a string,
a boolean, or a number (numbers relevant here are integral). -/
inductive JsValue where
  | undef
  | str (s : String)
  | bool (b : Bool)
  | num (n : Int)
deriving DecidableEq, BEq

/-- JavaScript truthiness for the values of `JsValue`: `undefined`, the
empty string, `false` and `0` are falsy, everything else is truthy. -/
def jsTruthy : JsValue → Bool
  | JsValue.undef => false
  | JsValue.str s => !s.isEmpty
  | JsValue.bool b => b
  | JsValue.num n => n != 0

/-- Helper for `jsSplit`: accumulate the current segment (reversed) while
walking the character list. -/
def jsSplitAux (sep : Char) : List Char → List Char → List String
  | [], acc => [String.mk acc.reverse]
  | c :: cs, acc =>
    if c = sep then String.mk acc.reverse :: jsSplitAux sep cs []
    else jsSplitAux sep cs (c :: acc)

/-- The JavaScript `String.prototype.split` with a one-character separator,
as used by `commands.split` in converter.js line 99: splitting the empty
string yields a single empty segment, and adjacent separators yield empty
segments. -/
def jsSplit (s : String) (sep : Char) : List String :=
  jsSplitAux sep s.data []

/-- A JavaScript object used as a string-keyed map (the `options` object
built by parseUrlCommand), with property insertion order preserved. -/
def JsObject := List (String × JsValue)
deriving DecidableEq

/-- Property assignment `o[k] = v`: overwrite in place if the key exists,
otherwise append the new property at the end. -/
def setKey : JsObject → String → JsValue → JsObject
  | [], k, v => [(k, v)]
  | (k0, v0) :: rest, k, v =>
    if k0 = k then (k0, v) :: rest else (k0, v0) :: setKey rest k v

/-- Property read `o[k]`: `undefined` when the key is absent. -/
def getKey : JsObject → String → JsValue
  | [], _ => JsValue.undef
  | (k0, v0) :: rest, k => if k0 = k then v0 else getKey rest k

/-- One entry of the option catalog, as built by parseHelpInfo in
converter.js (lines 82-87): the optional one-character short flag, the
long option name, whether the option takes a value, and whether it is in
the public allow list. -/
structure OptDefine where
  short : Option String
  option : String
  hasValue : Bool
  isPublic : Bool
deriving DecidableEq

/-- The fixed allow list `availableOptions` of converter.js lines 17-26,
including the duplicated `filter` entry of the source. -/
def availableOptions : List String :=
  ["export", "format", "field", "import", "filter", "output", "filter", "password"]

/-- The lodash lookup of converter.js line 104:
`_.find(this.options, o => o.option === option || o.short === option)`,
returning the first matching catalog entry. -/
def findDefine (catalog : List OptDefine) (option : String) : Option OptDefine :=
  catalog.find? (fun o => o.option = option || o.short = some option)

/-- A single-quote character as a string (used in the thrown message of
converter.js line 106). -/
def sq : String := String.singleton (Char.ofNat 39)

/-- The message of the error thrown by converter.js line 106 for an
unrecognized option segment. -/
def invalidOptionMsg (option : String) : String :=
  "invalid option " ++ sq ++ option ++ sq

/-- The while loop of parseUrlCommand (converter.js lines 102-123).  The
loop repeatedly shifts the front token; a shift from the empty list yields
`undefined` and a falsy (empty) token also ends the loop, so both cases
return the accumulated state.  A token that matches no catalog entry
throws.  A matched value-taking option shifts the next token as its value
(`undefined` when the list is exhausted), translating the value `txt` of
the option `format` to the emitted argument `text` while storing `txt`
itself, and a valueless option stores boolean `true`. -/
def parseLoop (catalog : List OptDefine) :
    List String → List JsValue → JsObject →
      Except String (List JsValue × JsObject)
  | [], args, options => Except.ok (args, options)
  | option :: rest, args, options =>
    if option = "" then Except.ok (args, options)
    else
      match findDefine catalog option with
      | none => Except.error (invalidOptionMsg option)
      | some define =>
        let dashes := if option.length = 1 then "-" else "--"
        let args := args ++ [JsValue.str (dashes ++ option)]
        if define.hasValue then
          match rest with
          | [] =>
            Except.ok (args ++ [JsValue.undef],
              setKey options define.option JsValue.undef)
          | v :: rest =>
            parseLoop catalog rest
              (if define.option = "format" && v = "txt" then
                args ++ [JsValue.str "text"]
              else
                args ++ [JsValue.str v])
              (setKey options define.option (JsValue.str v))
        else
          parseLoop catalog rest args
            (setKey options define.option (JsValue.bool true))

/-- The long names of the catalog entries the parsing loop matches in
option position, in order: a projection of `parseLoop` with the same
control flow (stop at an exhausted or empty token, consume one extra token
for a value-taking option), recording which options a command supplies. -/
def matchedOptions (catalog : List OptDefine) : List String → List String
  | [] => []
  | option :: rest =>
    if option = "" then []
    else
      match findDefine catalog option with
      | none => []
      | some define =>
        if define.hasValue then
          match rest with
          | [] => [define.option]
          | _ :: rest2 => define.option :: matchedOptions catalog rest2
        else define.option :: matchedOptions catalog rest

/-- parseUrlCommand (converter.js lines 98-131): split the command string
on slashes, run the parsing loop, and afterwards default a falsy `format`
property to the string `pdf`. -/
def parseUrlCommand (catalog : List OptDefine) (commands : String) :
    Except String (List JsValue × JsObject) :=
  match parseLoop catalog (jsSplit commands '/') [] [] with
  | Except.error e => Except.error e
  | Except.ok (args, options) =>
    Except.ok (args,
      if jsTruthy (getKey options "format") then options
      else setKey options "format" (JsValue.str "pdf"))

/-- A concrete catalog with the shape produced at startup from the help
text of unoconv, used to evaluate the parser on the examples of the
specification (the real catalog is parsed from the live help output). -/
def sampleCatalog : List OptDefine :=
  [ { short := some "e", option := "export", hasValue := true, isPublic := true }
  , { short := some "f", option := "format", hasValue := true, isPublic := true }
  , { short := some "F", option := "field", hasValue := true, isPublic := true }
  , { short := some "i", option := "import", hasValue := true, isPublic := true }
  , { short := some "o", option := "output", hasValue := true, isPublic := true }
  , { short := some "T", option := "timeout", hasValue := true, isPublic := false }
  , { short := none, option := "password", hasValue := true, isPublic := true } ]

deriving instance DecidableEq for Except

example : parseUrlCommand sampleCatalog "" =
    Except.ok ([], [("format", JsValue.str "pdf")]) := by decide

example : parseUrlCommand sampleCatalog "format/txt" =
    Except.ok ([JsValue.str "--format", JsValue.str "text"],
      [("format", JsValue.str "txt")]) := by decide

example : parseUrlCommand sampleCatalog "bogus/1" =
    Except.error (invalidOptionMsg "bogus") := by decide

example : parseUrlCommand sampleCatalog "output" =
    Except.ok ([JsValue.str "--output", JsValue.undef],
      [("output", JsValue.undef), ("format", JsValue.str "pdf")]) := by decide

/-! Help-text parsing (parseHelpInfo, converter.js lines 59-96).  Each line
of the help output is matched against the regular expression of line 15.
The matcher below is a direct character-level transcription of that
pattern; the pattern is anchored at both ends and deterministic, as
checked case by case: the leading whitespace run cannot lend characters to
the following literal dash, the optional short-flag group commits exactly
when its four-character shape is present (its second character is a letter
and therefore never the second dash of the long-flag marker), and each
character class is disjoint from the literal that follows it. -/

/-- The character class of the regex escape for whitespace, restricted to
the whitespace characters that can occur in the help text of a CLI tool
(the full JavaScript class also holds further Unicode space characters,
none of which affect which descriptors a help line yields). -/
def isJsWs (c : Char) : Bool :=
  c = ' ' || c = '\t' || c = '\n' || c = Char.ofNat 13 ||
  c = Char.ofNat 11 || c = Char.ofNat 12 || c = Char.ofNat 160

/-- The character class of a lowercase letter, for the long-flag name. -/
def isLowerAz (c : Char) : Bool := 'a' ≤ c && c ≤ 'z'

/-- The character class of any letter, for the short flag. -/
def isAlphaAz (c : Char) : Bool :=
  ('a' ≤ c && c ≤ 'z') || ('A' ≤ c && c ≤ 'Z')

/-- The character class of the value marker: lowercase letters and the
equals sign. -/
def isValChar (c : Char) : Bool := isLowerAz c || c = '='

/-- The regex dot: any character other than a line terminator. -/
def isDotChar (c : Char) : Bool :=
  !(c = '\n' || c = Char.ofNat 13 || c = Char.ofNat 8232 || c = Char.ofNat 8233)

/-- The tail of the help-line pattern after the value marker: one or more
whitespace characters followed by a nonempty description, checked over all
split points. -/
def wsThenDots (cs : List Char) : Bool :=
  (List.range cs.length).any (fun k =>
    decide (0 < k) && (cs.take k).all isJsWs &&
    !(cs.drop k).isEmpty && (cs.drop k).all isDotChar)

/-- Fourth stage of the help-line match: the value marker.  The group
wrapping the equals sign and the value in the source regex carries no
quantifier, so the marker is required for the line to match at all; the
descriptor field hasValue is the truthiness of the captured value string,
mirroring the source. -/
def helpLineValue (short : Option String) (optCs : List Char) :
    List Char → Option OptDefine
  | '=' :: r5 =>
    if (r5.takeWhile isValChar).isEmpty then none
    else if wsThenDots (r5.dropWhile isValChar) then
      some { short := short
           , option := String.mk optCs
           , hasValue := !(r5.takeWhile isValChar).isEmpty
           , isPublic := availableOptions.contains (String.mk optCs) }
    else none
  | _ => none

/-- Third stage of the help-line match: the required double dash and the
nonempty lowercase long-flag name. -/
def helpLineLong (short : Option String) : List Char → Option OptDefine
  | '-' :: '-' :: r3 =>
    if (r3.takeWhile isLowerAz).isEmpty then none
    else helpLineValue short (r3.takeWhile isLowerAz) (r3.dropWhile isLowerAz)
  | _ => none

/-- Second stage of the help-line match: the optional short-flag group of
the shape dash, letter, comma, whitespace. -/
def helpLineShort : List Char → Option OptDefine
  | '-' :: c :: ',' :: w :: rest =>
    if isAlphaAz c && isJsWs w then
      helpLineLong (some (String.singleton c)) rest
    else helpLineLong none ('-' :: c :: ',' :: w :: rest)
  | r1 => helpLineLong none r1

/-- Matching one line of the unoconv help output against the pattern of
converter.js line 15 and building the descriptor of lines 82-87; a line
that does not match the pattern yields no descriptor. -/
def parseHelpLine (line : String) : Option OptDefine :=
  if (line.data.takeWhile isJsWs).isEmpty then none
  else helpLineShort (line.data.dropWhile isJsWs)

/-- The whole option-catalog construction from a help text: the forEach of
converter.js lines 78-92 pushes one descriptor per matching line and
silently skips every other line. -/
def parseHelpInfo (helpText : String) : List OptDefine :=
  (jsSplit helpText '\n').filterMap parseHelpLine

example : parseHelpLine "  -f, --format=format      specify the output format" =
    some { short := some "f", option := "format", hasValue := true, isPublic := true } := by
  decide

example : parseHelpLine "  -l, --listener           start unoconv listener" = none := by
  decide

example : parseHelpLine "" = none := by decide

/-! The conversion runner (convert, converter.js lines 137-199). -/

/-- A JavaScript number that is not NaN: a finite value or one of the two
infinities.  Finite values are kept as exact rationals where an engine
stores the nearest IEEE double; the two agree on sign and on the zero and
infinity classifications (which `jsRound` enforces at the overflow and
underflow thresholds of the double range), and every property proved below
depends only on that classification.  NaN is `none` at the use sites. -/
inductive JsNumber where
  | finite (q : ℚ)
  | posInf
  | negInf
deriving DecidableEq

/-- Negation of a JavaScript number, for the sign of a numeric literal. -/
def JsNumber.neg : JsNumber → JsNumber
  | JsNumber.finite q => JsNumber.finite (-q)
  | JsNumber.posInf => JsNumber.negInf
  | JsNumber.negInf => JsNumber.posInf

/-- Whether a JavaScript number is strictly greater than zero. -/
def JsNumber.isPos : JsNumber → Bool
  | JsNumber.finite q => decide (0 < q)
  | JsNumber.posInf => true
  | JsNumber.negInf => false

/-- The smallest magnitude that rounds to infinity in an IEEE double:
the midpoint between the largest finite double (2^53 - 1) * 2^971 and
2^1024, at which round-to-nearest-ties-even already overflows. -/
def floatMaxThreshold : ℚ := mkRat (((2 ^ 54 - 1) * 2 ^ 970 : ℕ) : ℤ) 1

/-- The largest magnitude that rounds to zero in an IEEE double: half the
smallest positive subnormal 2^(-1074); the tie itself rounds to the even
side, zero. -/
def floatMinThreshold : ℚ := mkRat 1 (2 ^ 1075)

/-- Rounding of the exact value of a numeric literal at the extremes of
the IEEE double range: magnitudes at or above `floatMaxThreshold` become
the matching infinity, magnitudes at or below `floatMinThreshold`
collapse to zero, and values in between keep their exact rational (the
engine stores the nearest double, which has the same sign). -/
def jsRound (q : ℚ) : JsNumber :=
  if floatMaxThreshold ≤ q then JsNumber.posInf
  else if q ≤ -floatMaxThreshold then JsNumber.negInf
  else if -floatMinThreshold ≤ q ∧ q ≤ floatMinThreshold then JsNumber.finite 0
  else JsNumber.finite q

/-- The numeric value of a list of decimal digits. -/
def digitsVal (cs : List Char) : ℕ :=
  cs.foldl (fun a c => a * 10 + (c.toNat - 48)) 0

/-- The value of one digit in a given radix (digits beyond 9 as letters of
either case), none for a character outside the radix. -/
def radixVal (radix : ℕ) (c : Char) : Option ℕ :=
  let v :=
    if '0' ≤ c && c ≤ '9' then some (c.toNat - 48)
    else if 'a' ≤ c && c ≤ 'f' then some (c.toNat - 87)
    else if 'A' ≤ c && c ≤ 'F' then some (c.toNat - 55)
    else none
  match v with
  | some v => if v < radix then some v else none
  | none => none

/-- The value of a nonempty list of digits in a given radix, none when the
list is empty or holds a character outside the radix. -/
def radixToNat (radix : ℕ) (cs : List Char) : Option ℕ :=
  if cs.isEmpty then none
  else
    cs.foldl
      (fun acc c =>
        match acc, radixVal radix c with
        | some a, some v => some (a * radix + v)
        | _, _ => none)
      (some 0)

/-- The ExponentPart of a decimal literal: nothing (exponent zero), or the
letter e of either case followed by an optionally signed digit string that
must reach the end of the literal. -/
def parseExponent : List Char → Option Int
  | [] => some 0
  | c :: rest =>
    if c = 'e' || c = 'E' then
      match rest with
      | '+' :: ds => (radixToNat 10 ds).map (fun n => (n : Int))
      | '-' :: ds => (radixToNat 10 ds).map (fun n => -(n : Int))
      | ds => (radixToNat 10 ds).map (fun n => (n : Int))
    else none

/-- The shape of an unsigned decimal literal: digits with an optional dot,
optional fraction digits and an optional exponent, where at least one
digit must be present before the exponent.  Yields the digit list (integer
and fraction digits), the fraction length and the exponent. -/
def parseDecCore (cs : List Char) : Option (List Char × ℕ × Int) :=
  let intD := cs.takeWhile Char.isDigit
  let r1 := cs.dropWhile Char.isDigit
  match r1 with
  | '.' :: r2 =>
    let fracD := r2.takeWhile Char.isDigit
    let r3 := r2.dropWhile Char.isDigit
    if intD.isEmpty && fracD.isEmpty then none
    else (parseExponent r3).map (fun e => (intD ++ fracD, fracD.length, e))
  | _ =>
    if intD.isEmpty then none
    else (parseExponent r1).map (fun e => (intD, 0, e))

/-- The value of an unsigned decimal literal with digit list `digits`,
fraction length f and exponent e, that is m * 10 ^ (e - f) for the digit
value m.  The net exponent is capped before the value is built, so that
astronomically large exponents stay tractable: with a nonzero mantissa a
net exponent of at least 310 is already past the overflow threshold, and
one that pushes every digit below 10 ^ (-324) is already below the
underflow threshold; the remaining band is computed exactly and handed to
`jsRound`. -/
def decValue (digits : List Char) (f : ℕ) (e : Int) : JsNumber :=
  let m := digitsVal digits
  if m = 0 then JsNumber.finite 0
  else
    let net : Int := e - f
    if 310 ≤ net then JsNumber.posInf
    else if net + digits.length ≤ -324 then JsNumber.finite 0
    else
      jsRound
        (if 0 ≤ net then mkRat ((m : ℤ) * ((10 ^ net.toNat : ℕ) : ℤ)) 1
        else mkRat (m : ℤ) (10 ^ (-net).toNat))

/-- An unsigned part of a string numeric literal: the literal Infinity or
a decimal literal. -/
def parseUnsigned (cs : List Char) : Option JsNumber :=
  if cs = "Infinity".data then some JsNumber.posInf
  else
    match parseDecCore cs with
    | some (digits, f, e) => some (decValue digits f e)
    | none => none

/-- An unsigned non-decimal integer literal: 0x, 0o or 0b of either case
followed by digits of the radix reaching the end of the literal. -/
def parseRadixLit (cs : List Char) : Option JsNumber :=
  match cs with
  | '0' :: c :: ds =>
    if c = 'x' || c = 'X' then (radixToNat 16 ds).map (fun m => jsRound (m : ℚ))
    else if c = 'o' || c = 'O' then (radixToNat 8 ds).map (fun m => jsRound (m : ℚ))
    else if c = 'b' || c = 'B' then (radixToNat 2 ds).map (fun m => jsRound (m : ℚ))
    else none
  | _ => none

/-- JavaScript ToNumber on a string, following the StringNumericLiteral
grammar: surrounding whitespace is ignored and a blank string converts to
zero; an optional sign applies to a decimal literal or the literal
Infinity; an unsigned hexadecimal, octal or binary integer literal is
accepted (a signed one is not); anything else is NaN (none). -/
def strToNumber (s : String) : Option JsNumber :=
  match s.data.dropWhile isJsWs |>.reverse.dropWhile isJsWs |>.reverse with
  | [] => some (JsNumber.finite 0)
  | c :: cs =>
    if c = '+' then parseUnsigned cs
    else if c = '-' then (parseUnsigned cs).map JsNumber.neg
    else
      match parseRadixLit (c :: cs) with
      | some x => some x
      | none => parseUnsigned (c :: cs)

/-- JavaScript ToNumber on the values of `JsValue`, with none for NaN. -/
def jsToNumber : JsValue → Option JsNumber
  | JsValue.undef => none
  | JsValue.bool b => some (JsNumber.finite (if b then 1 else 0))
  | JsValue.num n => some (JsNumber.finite (n : ℚ))
  | JsValue.str s => strToNumber s

/-- The JavaScript comparison `v > 0`: the operand is converted to a
number and NaN makes the comparison false. -/
def jsGtZero (v : JsValue) : Bool :=
  match jsToNumber v with
  | some x => x.isPos
  | none => false

example : strToNumber "30" = some (JsNumber.finite 30) := by decide
example : strToNumber "3.5" = some (JsNumber.finite (mkRat 7 2)) := by decide
example : strToNumber "1e3" = some (JsNumber.finite 1000) := by decide
example : strToNumber "5.e1" = some (JsNumber.finite 50) := by decide
example : strToNumber ".25e+2" = some (JsNumber.finite 25) := by decide
example : strToNumber "0x1F" = some (JsNumber.finite 31) := by decide
example : strToNumber "0b101" = some (JsNumber.finite 5) := by decide
example : strToNumber "Infinity" = some JsNumber.posInf := by decide
example : strToNumber "-2.5e1" = some (JsNumber.finite (-25)) := by decide
example : strToNumber "" = some (JsNumber.finite 0) := by decide
example : strToNumber "  " = some (JsNumber.finite 0) := by decide
example : strToNumber "30s" = none := by decide
example : strToNumber "-0x10" = none := by decide
example : strToNumber "1e400" = some JsNumber.posInf := by decide
example : strToNumber "1e-400" = some (JsNumber.finite 0) := by decide

/-- String conversion of a JavaScript value, as performed by template
literals in converter.js. -/
def jsToString : JsValue → String
  | JsValue.undef => "undefined"
  | JsValue.str s => s
  | JsValue.bool b => if b then "true" else "false"
  | JsValue.num n => toString n

/-- The JavaScript expression `a || b` for a fallback string, as in
`options.output || inputFile` of converter.js line 144. -/
def jsOrString (a : JsValue) (b : String) : String :=
  if jsTruthy a then jsToString a else b

/-- The Node `path.parse(p).name` computation used in converter.js lines
141 and 144: the base name after the last slash, with the extension
stripped, where the extension starts at the last dot of the base name
unless that dot is its first character. -/
def pathParseName (p : String) : String :=
  let b := (jsSplit p '/').getLastD p
  let ds := b.data
  let ext := ds.reverse.takeWhile (fun c => c ≠ '.')
  if ext.length = ds.length then b
  else if ds.length - ext.length - 1 = 0 then b
  else String.mk (ds.take (ds.length - ext.length - 1))

example : pathParseName "/tmp/example.docx" = "example" := by decide
example : pathParseName "report.tar.gz" = "report.tar" := by decide
example : pathParseName "noext" = "noext" := by decide

/-- The timeout resolution of converter.js line 146:
`options.timeout > 0 ? options.timeout : 600`. -/
def resolveTimeout (t : JsValue) : JsValue :=
  if jsGtZero t then t else JsValue.num 600

example : resolveTimeout (JsValue.str "3.5") = JsValue.str "3.5" := by decide
example : resolveTimeout (JsValue.str "1e3") = JsValue.str "1e3" := by decide
example : resolveTimeout (JsValue.str "0x1F") = JsValue.str "0x1F" := by decide
example : resolveTimeout (JsValue.str "Infinity") = JsValue.str "Infinity" := by decide
example : resolveTimeout (JsValue.str "-3.5") = JsValue.num 600 := by decide
example : resolveTimeout (JsValue.str "1e-400") = JsValue.num 600 := by decide
example : resolveTimeout JsValue.undef = JsValue.num 600 := by decide

/-- Multiplication of a JavaScript number by a natural constant, rounded
back into the double range; used for the product timeout * 1000 of
converter.js line 191. -/
def jsNumberMulNat (x : JsNumber) (k : ℕ) : JsNumber :=
  match x with
  | JsNumber.finite q => jsRound (mkRat (q.num * (k : ℤ)) q.den)
  | JsNumber.posInf => JsNumber.posInf
  | JsNumber.negInf => JsNumber.negInf

/-- The only action of the timeout guard of converter.js lines 189-191:
the setTimeout callback unconditionally kills the child process. -/
inductive GuardAction where
  | killChild
deriving DecidableEq

/-- The values convert computes before spawning the child process
(converter.js lines 137-151) together with the timer it arms (lines
189-191): the output shape, the output paths, the resolved timeout, the
final spawn arguments, the delay argument handed to setTimeout (the
coerced timeout times 1000) and the action of its callback. -/
structure ConvertSetup where
  isHtml : Bool
  outputDirPath : String
  outputFile : String
  timeout : JsValue
  spawnArgs : List JsValue
  guardDelayMs : Option JsNumber
  guardAction : GuardAction
deriving DecidableEq

/-- The setup phase of convert, translated line by line from converter.js
lines 137-151 and 189-191. -/
def mkConvertSetup (tmpdir inputFile : String) (args : List JsValue)
    (options : JsObject) : ConvertSetup :=
  let fmt := getKey options "format"
  let isHtml := jsTruthy fmt && fmt == JsValue.str "html"
  let outputDirPath :=
    if isHtml then tmpdir ++ "/" ++ pathParseName inputFile else tmpdir
  let outputFile := outputDirPath ++ "/" ++
    pathParseName (jsOrString (getKey options "output") inputFile) ++ "." ++ jsToString fmt
  let timeout := resolveTimeout (getKey options "timeout")
  { isHtml := isHtml
  , outputDirPath := outputDirPath
  , outputFile := outputFile
  , timeout := timeout
  , spawnArgs := args ++ [JsValue.str "--output", JsValue.str outputFile, JsValue.str inputFile]
  , guardDelayMs := (jsToNumber timeout).map (fun x => jsNumberMulNat x 1000)
  , guardAction := GuardAction.killChild }

/-- Outcome of the exit handler of convert: a rejection with a message, an
immediate resolution with the single output file, or, for the html shape,
the archiving of the output directory into the sibling zip file whose
completion later resolves the job with the zip path. -/
inductive ExitResult where
  | reject (message : String)
  | resolveFile (path : String)
  | archiveAndResolve (dir : String) (zip : String)
deriving DecidableEq

/-- Whether an exit outcome is a rejection. -/
def ExitResult.isReject : ExitResult → Bool
  | ExitResult.reject _ => true
  | _ => false

/-- The message of the timeout rejection of converter.js line 165, built
from the resolved timeout value. -/
def conversionTimedOutMsg (timeout : JsValue) : String :=
  "No result from conversion (probably timed out after " ++ jsToString timeout ++ "s)"

/-- The exit handler of convert (converter.js lines 159-187): reject with
the concatenated captured standard-error chunks when any were captured,
otherwise reject with the timeout message when the output file does not
exist, otherwise archive the output directory for the html shape or
resolve with the output file. -/
def convertOnExit (errors : List String) (outputFileExists : Bool)
    (isHtml : Bool) (outputDirPath outputFile : String)
    (timeout : JsValue) : ExitResult :=
  if errors.length ≠ 0 then ExitResult.reject (String.join errors)
  else if outputFileExists = false then
    ExitResult.reject (conversionTimedOutMsg timeout)
  else if isHtml then
    ExitResult.archiveAndResolve outputDirPath (outputDirPath ++ ".zip")
  else ExitResult.resolveFile outputFile

/-- Events of the html success path after the exit handler has started the
archive (converter.js lines 168-183), in execution order. -/
inductive HtmlEvent where
  | removeStart (dir : String)
  | jobResolved (path : String)
  | removeDone (dir : String)
deriving DecidableEq, BEq

/-- The ordered events produced by the close handler of the archive file
stream (converter.js lines 176-180): the handler calls rimraf on the
output directory, which only starts an asynchronous recursive removal,
then immediately calls resolve with the zip path; the rimraf callback that
marks the removal as complete runs after the handler has returned and the
removal I/O has finished, hence after the resolution. -/
def htmlCloseTrace (outputDirPath : String) : List HtmlEvent :=
  [ HtmlEvent.removeStart outputDirPath
  , HtmlEvent.jobResolved (outputDirPath ++ ".zip")
  , HtmlEvent.removeDone outputDirPath ]

/-! The streaming runner (convertToStream, converter.js lines 201-223). -/

/-- Kinds of JavaScript variable declarations relevant here. -/
inductive JsBindingKind where
  | constBinding
  | letBinding
deriving DecidableEq

/-- The declaration kind of the stderr accumulator of convertToStream:
converter.js line 209 declares it with const. -/
def errorsBindingKind : JsBindingKind := JsBindingKind.constBinding

/-- A JavaScript compound assignment `x += d` on a string binding: on a
const binding it throws a TypeError, otherwise it appends. -/
def jsPlusAssign : JsBindingKind → String → String → Except String String
  | JsBindingKind.constBinding, _, _ =>
    Except.error "TypeError: Assignment to constant variable."
  | JsBindingKind.letBinding, cur, d => Except.ok (cur ++ d)

/-- The stderr data handler of convertToStream (converter.js lines
212-214): it executes the compound assignment on the accumulator declared
at line 209. -/
def convertToStreamStderrOnData (cur d : String) : Except String String :=
  jsPlusAssign errorsBindingKind cur d

/-- The comparison `code > 0` of converter.js line 217, where the exit
code is a number or null for a signal-terminated child. -/
def exitCodeGtZero : Option Int → Bool
  | some n => decide (0 < n)
  | none => false

/-- Effects of the exit handler of convertToStream (converter.js lines
215-220): the input file is unconditionally deleted, and an error event
carrying the current accumulator value is emitted exactly when the exit
code is greater than zero or the accumulator is nonempty. -/
structure StreamExitEffect where
  unlinkedInput : Bool
  emittedError : Option String
deriving DecidableEq

/-- The exit handler of convertToStream, given the exit code and the value
the accumulator holds when the process exits. -/
def convertToStreamOnExit (code : Option Int) (errors : String) : StreamExitEffect :=
  { unlinkedInput := true
  , emittedError :=
      if exitCodeGtZero code || errors.length ≠ 0 then some errors else none }

/-! The process reaper (killSoffice, converter.js lines 225-248). -/

/-- An entry of the process list delivered to the ps lookup callback. -/
structure PsProcess where
  pid : Nat
  command : String
deriving DecidableEq

/-- The ps lookup callback of killSoffice (converter.js lines 229-247):
a lookup error is thrown, otherwise every non-null entry of the result
list is selected for killing by process id. -/
def killSofficeOnLookup (err : Option String)
    (resultList : List (Option PsProcess)) : Except String (List Nat) :=
  match err with
  | some e => Except.error e
  | none => Except.ok ((resultList.filterMap id).map PsProcess.pid)

/-- The ps kill callback of killSoffice (converter.js lines 238-244): a
kill error is thrown, success is only logged. -/
def killSofficeOnKillResult (err : Option String) : Except String Unit :=
  match err with
  | some e => Except.error e
  | none => Except.ok ()

/-! General lemmas about the embedded definitions. -/

theorem getKey_setKey_self (o : JsObject) (k : String) (v : JsValue) :
    getKey (setKey o k v) k = v := by
  induction o with
  | nil => simp [setKey, getKey]
  | cons p rest ih =>
    obtain ⟨k0, v0⟩ := p
    by_cases h : k0 = k
    · simp [setKey, getKey, h]
    · simp [setKey, getKey, h, ih]

theorem getKey_setKey_ne (o : JsObject) (k k2 : String) (v : JsValue)
    (h : k ≠ k2) : getKey (setKey o k v) k2 = getKey o k2 := by
  induction o with
  | nil => simp [setKey, getKey, h]
  | cons p rest ih =>
    obtain ⟨k0, v0⟩ := p
    by_cases h0 : k0 = k
    · subst h0
      simp [setKey, getKey, h]
    · by_cases h2 : k0 = k2
      · simp [setKey, getKey, h0, h2, Ne.symm h]
      · simp [setKey, getKey, h0, h2, ih]

/-- The parsing loop only writes the long names of the catalog entries it
matches in option position: if the command supplies no option with long
name k, the property k of the options object is untouched. -/
theorem parseLoop_getKey_preserved (catalog : List OptDefine) (k : String) :
    ∀ (n : Nat) (tokens : List String), tokens.length ≤ n →
    ∀ (args : List JsValue) (options : JsObject),
    k ∉ matchedOptions catalog tokens →
    ∀ (a : List JsValue) (o : JsObject),
      parseLoop catalog tokens args options = Except.ok (a, o) →
      getKey o k = getKey options k := by
  intro n
  induction n with
  | zero =>
    intro tokens hlen args options _ a o h
    obtain rfl : tokens = [] := List.eq_nil_of_length_eq_zero (Nat.le_zero.mp hlen)
    simp only [parseLoop, Except.ok.injEq, Prod.mk.injEq] at h
    rw [← h.2]
  | succ n ih =>
    intro tokens hlen args options hk a o h
    cases tokens with
    | nil =>
      simp only [parseLoop, Except.ok.injEq, Prod.mk.injEq] at h
      rw [← h.2]
    | cons t rest =>
      simp only [parseLoop] at h
      split at h
      · simp only [Except.ok.injEq, Prod.mk.injEq] at h
        rw [← h.2]
      · next ht =>
        split at h
        · exact absurd h (by simp)
        · next define hf =>
          split at h
          · next hv =>
            split at h
            · have hmo : matchedOptions catalog [t] = [define.option] := by
                simp [matchedOptions, ht, hf, hv]
              rw [hmo] at hk
              have hdk : define.option ≠ k := fun hh => hk (by simp [hh])
              simp only [Except.ok.injEq, Prod.mk.injEq] at h
              rw [← h.2, getKey_setKey_ne _ _ _ _ hdk]
            · next v rest2 =>
              have hmo : matchedOptions catalog (t :: v :: rest2) =
                  define.option :: matchedOptions catalog rest2 := by
                simp [matchedOptions, ht, hf, hv]
              rw [hmo] at hk
              simp only [List.mem_cons, not_or] at hk
              have hdk : define.option ≠ k := fun hh => hk.1 hh.symm
              have hlen2 : rest2.length ≤ n := by
                simp only [List.length_cons] at hlen
                omega
              rw [ih rest2 hlen2 _ _ hk.2 a o h, getKey_setKey_ne _ _ _ _ hdk]
          · next hv =>
            have hmo : matchedOptions catalog (t :: rest) =
                define.option :: matchedOptions catalog rest := by
              simp [matchedOptions, ht, hf, hv]
            rw [hmo] at hk
            simp only [List.mem_cons, not_or] at hk
            have hdk : define.option ≠ k := fun hh => hk.1 hh.symm
            have hlen2 : rest.length ≤ n := by
              simp only [List.length_cons] at hlen
              omega
            rw [ih rest hlen2 _ _ hk.2 a o h, getKey_setKey_ne _ _ _ _ hdk]

/-- A value that compares greater than zero converts to a number that is
strictly positive. -/
theorem jsGtZero_toNumber (v : JsValue) (h : jsGtZero v = true) :
    ∃ x : JsNumber, jsToNumber v = some x ∧ x.isPos = true := by
  unfold jsGtZero at h
  cases hv : jsToNumber v with
  | none => rw [hv] at h; exact absurd h (by simp)
  | some x =>
    rw [hv] at h
    exact ⟨x, rfl, h⟩

/-- Every line the help pattern matches carries the value marker, so every
descriptor it produces has hasValue true. -/
theorem helpLineValue_hasValue (s : Option String) (optCs r : List Char)
    (d : OptDefine) (h : helpLineValue s optCs r = some d) :
    d.hasValue = true := by
  unfold helpLineValue at h
  split at h
  · split at h
    · exact absurd h (by simp)
    · split at h
      · next hval _ =>
        simp only [Option.some.injEq] at h
        rw [← h]
        simpa using hval
      · exact absurd h (by simp)
  · exact absurd h (by simp)

theorem helpLineLong_hasValue (s : Option String) (r : List Char)
    (d : OptDefine) (h : helpLineLong s r = some d) : d.hasValue = true := by
  unfold helpLineLong at h
  split at h
  · split at h
    · exact absurd h (by simp)
    · exact helpLineValue_hasValue _ _ _ _ h
  · exact absurd h (by simp)

theorem helpLineShort_hasValue (r : List Char) (d : OptDefine)
    (h : helpLineShort r = some d) : d.hasValue = true := by
  unfold helpLineShort at h
  split at h
  · split at h
    · exact helpLineLong_hasValue _ _ _ h
    · exact helpLineLong_hasValue _ _ _ h
  · exact helpLineLong_hasValue _ _ _ h

/-- Any descriptor produced from a help line has hasValue true: since the
value-marker group of the pattern is not optional, no matching line can
yield a valueless descriptor. -/
theorem parseHelpLine_hasValue (line : String) (d : OptDefine)
    (h : parseHelpLine line = some d) : d.hasValue = true := by
  unfold parseHelpLine at h
  split at h
  · exact absurd h (by simp)
  · exact helpLineShort_hasValue _ _ h

/-! Theorems settling the claims. -/

/-- C1: on child-process exit the failure checks of convert run in order:
captured standard-error chunks reject the job with their concatenation as
the message, regardless of whether the output file exists; otherwise a
missing output file rejects with the timeout message, which mentions the
resolved timeout value; otherwise the job is not rejected (it resolves,
for the html shape once the archive stream closes). -/
theorem convert_exit_failure_order (errors : List String) (ex : Bool)
    (isHtml : Bool) (dir file : String) (t : JsValue) :
    (errors ≠ [] →
      convertOnExit errors ex isHtml dir file t =
        ExitResult.reject (String.join errors)) ∧
    (errors = [] → ex = false →
      convertOnExit errors ex isHtml dir file t =
        ExitResult.reject (conversionTimedOutMsg t) ∧
      ∃ before after, conversionTimedOutMsg t = before ++ jsToString t ++ after) ∧
    (errors = [] → ex = true →
      (convertOnExit errors ex isHtml dir file t).isReject = false) := by
  refine ⟨fun h => ?_, fun h1 h2 => ?_, fun h1 h2 => ?_⟩
  · simp [convertOnExit, h]
  · subst h1; subst h2
    exact ⟨by simp [convertOnExit],
      "No result from conversion (probably timed out after ", "s)", rfl⟩
  · subst h1; subst h2
    cases isHtml <;> simp [convertOnExit, ExitResult.isReject]

theorem convert_exit_failure_order_witness :
    convertOnExit ["could not connect\n", "giving up\n"] true false
        "/tmp" "/tmp/out.pdf" (JsValue.num 600) =
      ExitResult.reject (String.join ["could not connect\n", "giving up\n"]) :=
  (convert_exit_failure_order ["could not connect\n", "giving up\n"] true false
    "/tmp" "/tmp/out.pdf" (JsValue.num 600)).1 (by decide)

/-- C2: the claim as specified fails on the code.  The standard-error
accumulator of convertToStream is declared with const (line 209), so the
compound assignment of its data handler (line 213) throws a TypeError and
the captured text can never be accumulated; an exit after standard-error
output therefore finds the accumulator still empty, and with exit code
zero no error event is emitted at all. -/
theorem convertToStream_stderr_const_assignment :
    convertToStreamStderrOnData "" "Error: Unable to connect or start own listener\n" =
      Except.error "TypeError: Assignment to constant variable." ∧
    convertToStreamOnExit (some 0) "" =
      { unlinkedInput := true, emittedError := none } ∧
    convertToStreamOnExit (some 1) "" =
      { unlinkedInput := true, emittedError := some "" } := by
  decide

/-- C3 counterexample: in the close handler of the archive stream the
job is resolved strictly before the asynchronous removal of the per-job
directory completes, so the directory still exists at the moment the job
has resolved. -/
theorem convert_html_removal_after_resolve :
    (htmlCloseTrace "/tmp/example").indexOf
        (HtmlEvent.jobResolved "/tmp/example.zip") <
      (htmlCloseTrace "/tmp/example").indexOf
        (HtmlEvent.removeDone "/tmp/example") := by
  decide

/-- C3 as amended: a passing html conversion archives the per-job output
directory into the sibling zip path (a path ending in .zip) and resolves
the job with that path; removal of the per-job directory is initiated
before the resolution but only completes asynchronously afterwards. -/
theorem convert_html_zip_resolution (dir file : String) (t : JsValue) :
    convertOnExit [] true true dir file t =
      ExitResult.archiveAndResolve dir (dir ++ ".zip") ∧
    (∃ stem, dir ++ ".zip" = stem ++ ".zip") ∧
    htmlCloseTrace dir =
      [ HtmlEvent.removeStart dir
      , HtmlEvent.jobResolved (dir ++ ".zip")
      , HtmlEvent.removeDone dir ] :=
  ⟨by simp [convertOnExit], ⟨dir, rfl⟩, rfl⟩

/-- C4: a format option with value txt emits the translated argument text
while storing the untranslated txt in the options map, and any other value
is emitted and stored as the same string; evaluated on the specification
example for the sample catalog. -/
theorem parseUrlCommand_format_txt (catalog : List OptDefine) (d : OptDefine)
    (rest : List String) (args : List JsValue) (options : JsObject)
    (hf : findDefine catalog "format" = some d)
    (ho : d.option = "format") (hv : d.hasValue = true) :
    parseLoop catalog ("format" :: "txt" :: rest) args options =
      parseLoop catalog rest (args ++ [JsValue.str "--format", JsValue.str "text"])
        (setKey options "format" (JsValue.str "txt")) ∧
    (∀ v, v ≠ "txt" →
      parseLoop catalog ("format" :: v :: rest) args options =
        parseLoop catalog rest (args ++ [JsValue.str "--format", JsValue.str v])
          (setKey options "format" (JsValue.str v))) ∧
    parseUrlCommand sampleCatalog "format/txt" =
      Except.ok ([JsValue.str "--format", JsValue.str "text"],
        [("format", JsValue.str "txt")]) := by
  have hlen : ¬ ("format".length = 1) := by decide
  refine ⟨?_, fun v hvtxt => ?_, by decide⟩
  · simp [parseLoop, hf, ho, hv, hlen]
  · simp [parseLoop, hf, ho, hv, hlen, hvtxt]

theorem parseUrlCommand_format_txt_witness :
    parseLoop sampleCatalog ["format", "txt"] [] [] =
      parseLoop sampleCatalog []
        [JsValue.str "--format", JsValue.str "text"]
        (setKey [] "format" (JsValue.str "txt")) :=
  (parseUrlCommand_format_txt sampleCatalog
    { short := some "f", option := "format", hasValue := true, isPublic := true }
    [] [] [] (by decide) rfl rfl).1

/-- C5: a token in option position that matches no catalog entry makes the
parsing loop throw immediately, with a message naming the offending
segment and independent of all following tokens; no part of the parser
spawns a subprocess, the loop either throws or returns the token
translation. -/
theorem parseUrlCommand_invalid_option (catalog : List OptDefine) (t : String)
    (rest : List String) (args : List JsValue) (options : JsObject)
    (hne : t ≠ "") (hnf : findDefine catalog t = none) :
    parseLoop catalog (t :: rest) args options =
      Except.error (invalidOptionMsg t) ∧
    (∃ before after, invalidOptionMsg t = before ++ t ++ after) ∧
    parseUrlCommand sampleCatalog "bogus/1" =
      Except.error (invalidOptionMsg "bogus") := by
  refine ⟨?_, ⟨"invalid option " ++ sq, sq, rfl⟩, by decide⟩
  simp [parseLoop, hne, hnf]

theorem parseUrlCommand_invalid_option_witness :
    parseLoop sampleCatalog ["bogus", "1"] [] [] =
      Except.error (invalidOptionMsg "bogus") :=
  (parseUrlCommand_invalid_option sampleCatalog "bogus" ["1"] [] []
    (by decide) (by decide)).1

/-- C6: the empty command string parses to an empty argument list with
the options map holding only the default format pdf, and any command
string that supplies no format option (its parse matches no catalog entry
with long name format in option position) yields an options map whose
format property is the default pdf. -/
theorem parseUrlCommand_defaults_format (catalog : List OptDefine) :
    parseUrlCommand catalog "" =
      Except.ok ([], [("format", JsValue.str "pdf")]) ∧
    (∀ s args options,
      "format" ∉ matchedOptions catalog (jsSplit s '/') →
      parseUrlCommand catalog s = Except.ok (args, options) →
      getKey options "format" = JsValue.str "pdf") := by
  have hsplit : jsSplit "" '/' = [""] := by decide
  have hloop : parseLoop catalog [""] [] [] = Except.ok ([], []) := by
    simp [parseLoop]
  refine ⟨?_, fun s args options hk h => ?_⟩
  · unfold parseUrlCommand
    rw [hsplit, hloop]
    rfl
  · unfold parseUrlCommand at h
    split at h
    · exact absurd h (by simp)
    · next a o heq =>
      have hfo : getKey o "format" = JsValue.undef :=
        (parseLoop_getKey_preserved catalog "format" (jsSplit s '/').length
          (jsSplit s '/') le_rfl [] [] hk a o heq).trans rfl
      rw [hfo] at h
      simp only [jsTruthy, Bool.false_eq_true, if_false, Except.ok.injEq,
        Prod.mk.injEq] at h
      rw [← h.2, getKey_setKey_self]

theorem parseUrlCommand_defaults_format_witness :
    parseUrlCommand sampleCatalog "" =
      Except.ok ([], [("format", JsValue.str "pdf")]) ∧
    getKey [("output", JsValue.str "res"), ("format", JsValue.str "pdf")]
        "format" = JsValue.str "pdf" :=
  ⟨(parseUrlCommand_defaults_format sampleCatalog).1,
   (parseUrlCommand_defaults_format sampleCatalog).2 "output/res"
     [JsValue.str "--output", JsValue.str "res"]
     [("output", JsValue.str "res"), ("format", JsValue.str "pdf")]
     (by decide) (by decide)⟩

/-- C7: the claim as specified fails on the code.  The group wrapping the
value marker in the help-line pattern carries no quantifier, so the marker
is required: a help line without it, such as the listener line, matches
nothing and is ignored instead of yielding a descriptor with hasValue
false, and every matched line yields hasValue true (see the lemma
parseHelpLine_hasValue). -/
theorem parseHelpInfo_marker_required :
    parseHelpLine "  -l, --listener           start unoconv listener" = none ∧
    parseHelpLine "  -f, --format=format      specify the output format" =
      some { short := some "f", option := "format", hasValue := true, isPublic := true } ∧
    parseHelpInfo
        "converter options:\n  -l, --listener           start unoconv listener\n  -f, --format=format      specify the output format" =
      [{ short := some "f", option := "format", hasValue := true, isPublic := true }] := by
  decide

/-- C8 counterexample: the timeout guard of convert compares with the
JavaScript coercing greater-than, so the numeric string 30 — reachable,
as the timeout catalog option is matched by the parser — passes the check
and becomes the effective timeout, where the claim prescribes the default
600 for every value that is not a positive number. -/
theorem convert_timeout_numeric_string :
    resolveTimeout (JsValue.str "30") = JsValue.str "30" ∧
    (∀ n : Int, JsValue.str "30" ≠ JsValue.num n) ∧
    parseUrlCommand sampleCatalog "timeout/30" =
      Except.ok ([JsValue.str "--timeout", JsValue.str "30"],
        [("timeout", JsValue.str "30"), ("format", JsValue.str "pdf")]) :=
  by
  refine ⟨by decide, fun n h => ?_, by decide⟩
  exact JsValue.noConfusion h

/-- C8 as amended: the effective timeout is options.timeout whenever that
value compares greater than zero under the full JavaScript numeric
coercion — every positive number, and also every string whose ToNumber
value is positive, fractional, exponent, radix and Infinity literals
included — and 600 otherwise; the resolved timeout itself always compares
greater than zero, and the armed guard receives the coerced timeout times
1000 as its setTimeout delay argument, its callback killing the child
process unconditionally. -/
theorem convert_timeout_resolution (tmp input : String) (args : List JsValue)
    (options : JsObject) :
    ((∃ n : Int, getKey options "timeout" = JsValue.num n ∧ 0 < n) →
      (mkConvertSetup tmp input args options).timeout = getKey options "timeout") ∧
    (jsGtZero (getKey options "timeout") = true →
      (mkConvertSetup tmp input args options).timeout = getKey options "timeout") ∧
    (jsGtZero (getKey options "timeout") = false →
      (mkConvertSetup tmp input args options).timeout = JsValue.num 600) ∧
    jsGtZero (mkConvertSetup tmp input args options).timeout = true ∧
    (mkConvertSetup tmp input args options).guardDelayMs =
      (jsToNumber (mkConvertSetup tmp input args options).timeout).map
        (fun x => jsNumberMulNat x 1000) ∧
    (mkConvertSetup tmp input args options).guardAction = GuardAction.killChild := by
  have hto : (mkConvertSetup tmp input args options).timeout =
      resolveTimeout (getKey options "timeout") := rfl
  have hpos : jsGtZero (getKey options "timeout") = true →
      (mkConvertSetup tmp input args options).timeout = getKey options "timeout" := by
    intro h
    rw [hto, resolveTimeout, if_pos h]
  refine ⟨?_, hpos, ?_, ?_, rfl, rfl⟩
  · rintro ⟨n, hn, hn0⟩
    refine hpos ?_
    rw [hn]
    simp only [jsGtZero, jsToNumber, JsNumber.isPos, decide_eq_true_eq]
    exact_mod_cast hn0
  · intro h
    rw [hto, resolveTimeout, if_neg (by simp [h])]
  · rw [hto, resolveTimeout]
    by_cases hg : jsGtZero (getKey options "timeout") = true
    · rw [if_pos hg]
      exact hg
    · rw [if_neg hg]
      decide

theorem convert_timeout_resolution_witness :
    (mkConvertSetup "/tmp" "/tmp/in.docx" [] [("timeout", JsValue.num 30)]).timeout =
      getKey [("timeout", JsValue.num 30)] "timeout" :=
  (convert_timeout_resolution "/tmp" "/tmp/in.docx" []
    [("timeout", JsValue.num 30)]).1 ⟨30, by decide, by decide⟩

/-- C9: both callbacks of the process reaper rethrow the error handed to
them — a failure to list the running processes and a failure to kill a
matched process are propagated, not swallowed. -/
theorem killSoffice_failures_propagate (e : String)
    (resultList : List (Option PsProcess)) :
    killSofficeOnLookup (some e) resultList = Except.error e ∧
    killSofficeOnKillResult (some e) = Except.error e :=
  ⟨rfl, rfl⟩

/-- C10: a trailing value-taking option makes the loop succeed, emitting
the flag token followed by the undefined shifted value and recording the
long name with an undefined value; when that trailing option is format,
the final defaulting overwrites the undefined entry with pdf in the
options map while the argument list keeps the undefined token. -/
theorem parseUrlCommand_trailing_value_option (catalog : List OptDefine)
    (t : String) (d : OptDefine) (args : List JsValue) (options : JsObject)
    (hne : t ≠ "") (hf : findDefine catalog t = some d) (hv : d.hasValue = true) :
    parseLoop catalog [t] args options =
      Except.ok
        (args ++ [JsValue.str ((if t.length = 1 then "-" else "--") ++ t), JsValue.undef],
         setKey options d.option JsValue.undef) ∧
    parseUrlCommand sampleCatalog "output" =
      Except.ok ([JsValue.str "--output", JsValue.undef],
        [("output", JsValue.undef), ("format", JsValue.str "pdf")]) ∧
    parseUrlCommand sampleCatalog "format" =
      Except.ok ([JsValue.str "--format", JsValue.undef],
        [("format", JsValue.str "pdf")]) := by
  refine ⟨?_, by decide, by decide⟩
  simp [parseLoop, hne, hf, hv]

theorem parseUrlCommand_trailing_value_option_witness :
    parseLoop sampleCatalog ["output"] ([] : List JsValue) ([] : JsObject) =
      Except.ok
        ([JsValue.str ((if "output".length = 1 then "-" else "--") ++ "output"),
          JsValue.undef],
         setKey ([] : JsObject) "output" JsValue.undef) :=
  (parseUrlCommand_trailing_value_option sampleCatalog "output"
    { short := some "o", option := "output", hasValue := true, isPublic := true }
    ([] : List JsValue) ([] : JsObject) (by decide) (by decide) rfl).1

end UnoconvServer
